import Mathlib

/-!
# Verification of the progress-tracker core (src/scr/App.tsx, src/scr/types.ts)

Shallow embedding of the tracker state machine and dataset codec of the
progress-tracker application.  Each handler of `App.tsx` becomes a pure Lean
function; the nondeterministic collaborators (`uid()` and `Date.now()`) become
explicit parameters, one per call site, in the order the source calls them.
JavaScript numbers that hold integer counters or epoch-millisecond timestamps
are modelled as `Int`.
-/

set_option autoImplicit false

namespace ProgressTracker

/-- `LogEntry.action` from `types.ts`: the closed set of log-entry kinds. -/
inductive Action where
  | created
  | increment
  | decrement
  | completed
  | archived
deriving DecidableEq, Repr

/-- `LogEntry` from `types.ts`. -/
structure LogEntry where
  id : String
  timestamp : Int
  action : Action
  detail : String
deriving DecidableEq, Repr

/-- `Tracker` from `types.ts`. -/
structure Tracker where
  id : String
  label : String
  target : Int
  current : Int
  createdAt : Int
  completedAt : Option Int
  archivedAt : Option Int
  logs : List LogEntry
deriving DecidableEq, Repr

/-- The relevant React state of `App`: the persisted active tracker and
history, plus the create-form inputs `label` and `targetStr`. -/
structure AppState where
  activeTracker : Option Tracker
  history : List Tracker
  label : String
  targetStr : String
deriving DecidableEq, Repr

/-- `addLog` (App.tsx line 142): returns a copy of the tracker with one fresh
entry appended to `logs`.  `newId` stands for the `uid()` call and `now` for
the `Date.now()` call made while building the entry. -/
def addLog (tracker : Tracker) (action : Action) (detail : String)
    (newId : String) (now : Int) : Tracker :=
  { tracker with
    logs := tracker.logs ++ [{ id := newId, timestamp := now, action := action, detail := detail }] }

/-- JavaScript whitespace, as skipped by `parseInt` and stripped by
`String.prototype.trim`. -/
def isJSSpace (c : Char) : Bool :=
  c = ' ' || c = '\t' || c = '\n' || c = '\r'

/-- Model of the JavaScript builtin `String.prototype.trim`, used by
`handleCreate` on the label (App.tsx line 149): strip whitespace from both
ends. -/
def jsTrim (s : String) : String :=
  (((s.toList.dropWhile isJSSpace).reverse.dropWhile isJSSpace).reverse).asString

/-- The numeric value of a list of decimal digits. -/
def digitsToNat (cs : List Char) : Nat :=
  cs.foldl (fun acc c => 10 * acc + (c.toNat - 48)) 0

/-- Model of the JavaScript builtin `parseInt` on its one-argument decimal
form, as called by `handleCreate` (App.tsx line 147): skip leading
whitespace, read an optional sign, then the longest digit prefix; `none`
stands for `NaN` (no digits found). -/
def parseIntJS (s : String) : Option Int :=
  let cs := s.toList.dropWhile isJSSpace
  let sign : Int := if cs.head? = some '-' then -1 else 1
  let rest := if cs.head? = some '-' || cs.head? = some '+' then cs.tail else cs
  let digits := rest.takeWhile Char.isDigit
  if digits.isEmpty then none else some (sign * digitsToNat digits)

/-- `handleCreate` (App.tsx lines 146-153).  `u1` is the `uid()` for the
tracker id, `n1` the `Date.now()` for `createdAt`, and `u2`/`n2` the
`uid()`/`Date.now()` consumed by the `addLog` call.  Guard: `parseInt` result
falsy (NaN or 0) or `< 1` means no effect. -/
def handleCreate (u1 u2 : String) (n1 n2 : Int) (s : AppState) : AppState :=
  match parseIntJS s.targetStr with
  | none => s
  | some target =>
    if target < 1 then s
    else
      let t : Tracker :=
        { id := u1
          label := if jsTrim s.label = "" then "Tracker" else jsTrim s.label
          target := target
          current := 0
          createdAt := n1
          completedAt := none
          archivedAt := none
          logs := [] }
      let t := addLog t .created
        ("Created \"" ++ t.label ++ "\" with target " ++ toString target) u2 n2
      { s with activeTracker := some t, label := "", targetStr := "" }

/-- `handleIncrement` (App.tsx lines 155-164).  `u1`/`n1` feed the
`increment` log entry, `n2` is the `Date.now()` stored into `completedAt`,
and `u2`/`n3` feed the `completed` log entry, when taken. -/
def handleIncrement (u1 u2 : String) (n1 n2 n3 : Int) (s : AppState) : AppState :=
  match s.activeTracker with
  | none => s
  | some a =>
    if a.current ≥ a.target then s
    else
      let t := { a with current := a.current + 1 }
      let t := addLog t .increment
        ("Progress: " ++ toString t.current ++ "/" ++ toString t.target) u1 n1
      let t :=
        if t.current ≥ t.target then
          addLog { t with completedAt := some n2 } .completed "Completed! 🎉" u2 n3
        else t
      { s with activeTracker := some t }

/-- `handleDecrement` (App.tsx lines 166-172).  `u1`/`n1` feed the
`decrement` log entry. -/
def handleDecrement (u1 : String) (n1 : Int) (s : AppState) : AppState :=
  match s.activeTracker with
  | none => s
  | some a =>
    if a.current ≤ 0 then s
    else
      let wasComplete := a.current ≥ a.target
      let t := { a with
        current := a.current - 1
        completedAt := if wasComplete then none else a.completedAt }
      let t := addLog t .decrement
        ("Progress: " ++ toString t.current ++ "/" ++ toString t.target) u1 n1
      { s with activeTracker := some t }

/-- `handleArchive` (App.tsx lines 174-180).  `n1` is the `Date.now()` stored
into `archivedAt`; `u1`/`n2` feed the `archived` log entry.  The finished
tracker is prepended to the history and the active slot is cleared. -/
def handleArchive (u1 : String) (n1 n2 : Int) (s : AppState) : AppState :=
  match s.activeTracker with
  | none => s
  | some a =>
    let t := { a with archivedAt := some n1 }
    let t := addLog t .archived "Tracker archived" u1 n2
    { s with activeTracker := none, history := t :: s.history }

/-- A parsed import document as `JSON.parse` delivers it to `processFile`
(App.tsx line 84): each of the three fields of `AppData` may be absent or
null, which collapse to `none` here (objects and arrays are truthy in
JavaScript, including the empty array, so presence is all that the
validation can observe). -/
structure RawAppData where
  version : Option Int
  activeTracker : Option Tracker
  history : Option (List Tracker)
deriving DecidableEq, Repr

/-- The validation test of `processFile` (App.tsx line 85):
`!parsed.version || (!parsed.activeTracker && !parsed.history)` throws, so a
document is accepted iff `version` is truthy (present and nonzero) and at
least one of `activeTracker`/`history` is present. -/
def importValid (d : RawAppData) : Bool :=
  (match d.version with
   | none => false
   | some v => v ≠ 0)
  && (d.activeTracker.isSome || d.history.isSome)

/-- `handleImport` (App.tsx lines 199-204): wholesale-replace the active
tracker and the history (`data.history ?? []`); the form inputs are not
touched. -/
def handleImport (d : RawAppData) (s : AppState) : AppState :=
  { s with activeTracker := d.activeTracker, history := d.history.getD [] }

/-- `processFile` (App.tsx lines 79-94) after the file has been read: the
argument is `none` when `JSON.parse` threw (unparseable content), otherwise
the parsed document.  Returns the resulting state together with `true` on a
successful import and `false` when the error branch was taken; on failure the
state is returned unchanged. -/
def processFile (parsed : Option RawAppData) (s : AppState) : AppState × Bool :=
  match parsed with
  | none => (s, false)
  | some d => if importValid d then (handleImport d s, true) else (s, false)

/-- The document built by `handleExport` (App.tsx lines 188-197):
`{ version: 1, activeTracker, history }`, contents untransformed.  (The
JSON serialization to the downloaded file is the identity at this structured
level.) -/
def handleExport (active : Option Tracker) (history : List Tracker) : RawAppData :=
  { version := some 1, activeTracker := active, history := some history }

/-- One engine operation on the app state, other than create and import,
with its fresh-id and clock inputs. -/
inductive Op where
  | inc (u1 u2 : String) (n1 n2 n3 : Int)
  | dec (u1 : String) (n1 : Int)
  | arch (u1 : String) (n1 n2 : Int)
deriving DecidableEq, Repr

/-- Apply one operation to the app state. -/
def applyOp (s : AppState) : Op → AppState
  | .inc u1 u2 n1 n2 n3 => handleIncrement u1 u2 n1 n2 n3 s
  | .dec u1 n1 => handleDecrement u1 n1 s
  | .arch u1 n1 n2 => handleArchive u1 n1 n2 s

/-- Run a sequence of operations from a starting state. -/
def runOps (s : AppState) (ops : List Op) : AppState :=
  ops.foldl applyOp s

/-- The counter and completion invariant of a tracker produced by the engine:
`0 ≤ current ≤ target`, `target ≥ 1`, and `completedAt` is non-null exactly
when the counter sits at the target. -/
def trackerInv (t : Tracker) : Prop :=
  0 ≤ t.current ∧ t.current ≤ t.target ∧ 1 ≤ t.target ∧
    (t.completedAt ≠ none ↔ t.current = t.target)

/-- The invariant lifted to the app state: it holds for the active tracker
(when present) and for every tracker in the history. -/
def stateInv (s : AppState) : Prop :=
  (∀ t, s.activeTracker = some t → trackerInv t) ∧ ∀ t ∈ s.history, trackerInv t

/-- Scenario 1 start: a fresh session with the create form filled in. -/
def initialState : AppState := ⟨none, [], "Push-ups", "20"⟩

/-- Scenario 1 result: the state after a successful create on the fresh
session. -/
def scenarioStart : AppState := handleCreate "t0" "l0" 0 0 initialState

/-- Iterate `handleIncrement` (with fixed fresh-id and clock inputs). -/
def incN : Nat → AppState → AppState
  | 0, s => s
  | k + 1, s => incN k (handleIncrement "u" "v" 0 0 0 s)

/-- A tracker whose counter sits at zero, for the decrement no-op case. -/
def zeroTracker : Tracker := ⟨"x", "Laps", 3, 0, 0, none, none, []⟩

/-- A state whose active tracker is `zeroTracker`. -/
def zeroState : AppState := ⟨some zeroTracker, [], "", ""⟩

/-- A completed tracker (counter at target), for the increment no-op case. -/
def fullTracker : Tracker := ⟨"y", "Laps", 3, 3, 0, some 5, none, []⟩

/-- A state whose active tracker is `fullTracker`. -/
def fullState : AppState := ⟨some fullTracker, [], "", ""⟩

/-- A hand-edited tracker with `current > target`, as could come from an
imported file. -/
def oddTracker : Tracker := ⟨"z", "Odd", 3, 5, 0, none, none, []⟩

/-- An import document carrying `oddTracker` both as the active tracker and
in the history. -/
def oddDoc : RawAppData := ⟨some 1, some oddTracker, some [oddTracker]⟩

/-- An import document with a truthy version, an active tracker, and no
`history` field. -/
def noHistDoc : RawAppData := ⟨some 2, some zeroTracker, none⟩

/-- A fresh session whose create form has a whitespace label and target 3. -/
def createState : AppState := ⟨none, [], "  ", "3"⟩

/-- The tracker reached from a fresh create (target 3) after one
increment. -/
def witnessTracker : Tracker :=
  ⟨"a", "A", 3, 1, 0, none, none,
    [⟨"b", 1, .created, "Created \"A\" with target 3"⟩,
     ⟨"c", 2, .increment, "Progress: 1/3"⟩]⟩

/-- The label `handleCreate` resolves from the form input: the trimmed label,
or the placeholder when it trims to empty. -/
def resolvedLabel (s : AppState) : String :=
  if jsTrim s.label = "" then "Tracker" else jsTrim s.label

lemma handleCreate_parse_none (u1 u2 : String) (n1 n2 : Int) (s : AppState)
    (hp : parseIntJS s.targetStr = none) :
    handleCreate u1 u2 n1 n2 s = s := by
  simp only [handleCreate, hp]

lemma handleCreate_small (u1 u2 : String) (n1 n2 : Int) (s : AppState) (tgt : Int)
    (hp : parseIntJS s.targetStr = some tgt) (hlt : tgt < 1) :
    handleCreate u1 u2 n1 n2 s = s := by
  simp only [handleCreate, hp]
  rw [if_pos hlt]

lemma handleCreate_success (u1 u2 : String) (n1 n2 : Int) (s : AppState) (tgt : Int)
    (hp : parseIntJS s.targetStr = some tgt) (h1 : 1 ≤ tgt) :
    handleCreate u1 u2 n1 n2 s =
      ⟨some ⟨u1, resolvedLabel s, tgt, 0, n1, none, none,
        [⟨u2, n2, .created,
          "Created \"" ++ resolvedLabel s ++ "\" with target " ++ toString tgt⟩]⟩,
        s.history, "", ""⟩ := by
  simp only [handleCreate, resolvedLabel, hp]
  rw [if_neg (show ¬tgt < 1 by omega)]
  rfl

lemma handleDecrement_zero (u1 : String) (n1 : Int) (s : AppState) (a : Tracker)
    (h : s.activeTracker = some a) (hz : a.current ≤ 0) :
    handleDecrement u1 n1 s = s := by
  simp only [handleDecrement, h]
  rw [if_pos hz]

lemma handleDecrement_pos (u1 : String) (n1 : Int) (s : AppState) (a : Tracker)
    (h : s.activeTracker = some a) (hz : 0 < a.current) :
    handleDecrement u1 n1 s =
      { s with activeTracker := some { a with
          current := a.current - 1
          completedAt := if a.current ≥ a.target then none else a.completedAt
          logs := a.logs ++ [⟨u1, n1, .decrement,
            "Progress: " ++ toString (a.current - 1) ++ "/" ++ toString a.target⟩] } } := by
  simp only [handleDecrement, h]
  rw [if_neg (show ¬a.current ≤ 0 by omega)]
  rfl

lemma handleIncrement_noop (u1 u2 : String) (n1 n2 n3 : Int) (s : AppState) (a : Tracker)
    (h : s.activeTracker = some a) (hge : a.current ≥ a.target) :
    handleIncrement u1 u2 n1 n2 n3 s = s := by
  simp only [handleIncrement, h]
  rw [if_pos hge]

lemma handleIncrement_step (u1 u2 : String) (n1 n2 n3 : Int) (s : AppState) (a : Tracker)
    (h : s.activeTracker = some a) (hlt : a.current + 1 < a.target) :
    handleIncrement u1 u2 n1 n2 n3 s =
      { s with activeTracker := some { a with
          current := a.current + 1
          logs := a.logs ++ [⟨u1, n1, .increment,
            "Progress: " ++ toString (a.current + 1) ++ "/" ++ toString a.target⟩] } } := by
  simp only [handleIncrement, h, addLog]
  rw [if_neg (show ¬a.current ≥ a.target by omega)]
  rw [if_neg (show ¬a.current + 1 ≥ a.target by omega)]

lemma handleIncrement_complete (u1 u2 : String) (n1 n2 n3 : Int) (s : AppState) (a : Tracker)
    (h : s.activeTracker = some a) (heq : a.current + 1 = a.target) :
    handleIncrement u1 u2 n1 n2 n3 s =
      { s with activeTracker := some { a with
          current := a.current + 1
          completedAt := some n2
          logs := a.logs ++
            [⟨u1, n1, .increment,
              "Progress: " ++ toString (a.current + 1) ++ "/" ++ toString a.target⟩,
             ⟨u2, n3, .completed, "Completed! 🎉"⟩] } } := by
  simp only [handleIncrement, h, addLog]
  rw [if_neg (show ¬a.current ≥ a.target by omega)]
  rw [if_pos (show a.current + 1 ≥ a.target by omega)]
  simp [List.append_assoc]

lemma handleArchive_some (u1 : String) (n1 n2 : Int) (s : AppState) (a : Tracker)
    (h : s.activeTracker = some a) :
    handleArchive u1 n1 n2 s =
      { s with
        activeTracker := none
        history := { a with
          archivedAt := some n1
          logs := a.logs ++ [⟨u1, n2, .archived, "Tracker archived"⟩] } :: s.history } := by
  simp only [handleArchive, h, addLog]

lemma handleIncrement_no_active (u1 u2 : String) (n1 n2 n3 : Int) (s : AppState)
    (h : s.activeTracker = none) :
    handleIncrement u1 u2 n1 n2 n3 s = s := by
  simp only [handleIncrement, h]

lemma handleDecrement_no_active (u1 : String) (n1 : Int) (s : AppState)
    (h : s.activeTracker = none) :
    handleDecrement u1 n1 s = s := by
  simp only [handleDecrement, h]

lemma handleArchive_no_active (u1 : String) (n1 n2 : Int) (s : AppState)
    (h : s.activeTracker = none) :
    handleArchive u1 n1 n2 s = s := by
  simp only [handleArchive, h]

lemma stateInv_handleIncrement (u1 u2 : String) (n1 n2 n3 : Int) (s : AppState)
    (h : stateInv s) : stateInv (handleIncrement u1 u2 n1 n2 n3 s) := by
  obtain ⟨hact, hhist⟩ := h
  cases hA : s.activeTracker with
  | none => rw [handleIncrement_no_active u1 u2 n1 n2 n3 s hA]; exact ⟨hact, hhist⟩
  | some a =>
    have hInv := hact a hA
    obtain ⟨hc0, hct, ht1, hiff⟩ := hInv
    rcases lt_trichotomy (a.current + 1) a.target with hlt | heq | hgt
    · rw [handleIncrement_step u1 u2 n1 n2 n3 s a hA hlt]
      refine ⟨?_, hhist⟩
      intro t ht
      simp only [Option.some.injEq] at ht
      subst ht
      have hne : a.completedAt = none := by
        by_contra hne
        exact absurd (hiff.mp hne) (by omega)
      exact ⟨show (0:Int) ≤ a.current + 1 by omega,
        show a.current + 1 ≤ a.target by omega, ht1,
        show a.completedAt ≠ none ↔ a.current + 1 = a.target by simp [hne]; omega⟩
    · rw [handleIncrement_complete u1 u2 n1 n2 n3 s a hA heq]
      refine ⟨?_, hhist⟩
      intro t ht
      simp only [Option.some.injEq] at ht
      subst ht
      exact ⟨show (0:Int) ≤ a.current + 1 by omega,
        show a.current + 1 ≤ a.target by omega, ht1,
        show some n2 ≠ none ↔ a.current + 1 = a.target by simp [heq]⟩
    · rw [handleIncrement_noop u1 u2 n1 n2 n3 s a hA (by omega)]
      exact ⟨hact, hhist⟩

lemma stateInv_handleDecrement (u1 : String) (n1 : Int) (s : AppState)
    (h : stateInv s) : stateInv (handleDecrement u1 n1 s) := by
  obtain ⟨hact, hhist⟩ := h
  cases hA : s.activeTracker with
  | none => rw [handleDecrement_no_active u1 n1 s hA]; exact ⟨hact, hhist⟩
  | some a =>
    have hInv := hact a hA
    obtain ⟨hc0, hct, ht1, hiff⟩ := hInv
    by_cases hz : a.current ≤ 0
    · rw [handleDecrement_zero u1 n1 s a hA hz]; exact ⟨hact, hhist⟩
    · rw [handleDecrement_pos u1 n1 s a hA (by omega)]
      refine ⟨?_, hhist⟩
      intro t ht
      simp only [Option.some.injEq] at ht
      subst ht
      by_cases hge : a.current ≥ a.target
      · exact ⟨show (0:Int) ≤ a.current - 1 by omega,
          show a.current - 1 ≤ a.target by omega, ht1,
          show (if a.current ≥ a.target then none else a.completedAt) ≠ none ↔
              a.current - 1 = a.target by simp [hge]; omega⟩
      · have hne : a.completedAt = none := by
          by_contra hne
          exact absurd (hiff.mp hne) (by omega)
        exact ⟨show (0:Int) ≤ a.current - 1 by omega,
          show a.current - 1 ≤ a.target by omega, ht1,
          show (if a.current ≥ a.target then none else a.completedAt) ≠ none ↔
              a.current - 1 = a.target by simp [hge, hne]; omega⟩

lemma stateInv_handleArchive (u1 : String) (n1 n2 : Int) (s : AppState)
    (h : stateInv s) : stateInv (handleArchive u1 n1 n2 s) := by
  obtain ⟨hact, hhist⟩ := h
  cases hA : s.activeTracker with
  | none => rw [handleArchive_no_active u1 n1 n2 s hA]; exact ⟨hact, hhist⟩
  | some a =>
    have hInv := hact a hA
    obtain ⟨hc0, hct, ht1, hiff⟩ := hInv
    rw [handleArchive_some u1 n1 n2 s a hA]
    constructor
    · intro t ht
      simp at ht
    · intro t ht
      simp only [List.mem_cons] at ht
      rcases ht with ht | ht
      · subst ht
        exact ⟨hc0, hct, ht1, hiff⟩
      · exact hhist t ht

lemma stateInv_applyOp (s : AppState) (op : Op) (h : stateInv s) :
    stateInv (applyOp s op) := by
  cases op with
  | inc u1 u2 n1 n2 n3 => exact stateInv_handleIncrement u1 u2 n1 n2 n3 s h
  | dec u1 n1 => exact stateInv_handleDecrement u1 n1 s h
  | arch u1 n1 n2 => exact stateInv_handleArchive u1 n1 n2 s h

lemma stateInv_runOps (ops : List Op) (s : AppState) (h : stateInv s) :
    stateInv (runOps s ops) := by
  induction ops generalizing s with
  | nil => exact h
  | cons op ops ih => exact ih (applyOp s op) (stateInv_applyOp s op h)

lemma stateInv_create_start (lbl ts u1 u2 : String) (n1 n2 : Int) (tgt : Int)
    (hp : parseIntJS ts = some tgt) (h1 : 1 ≤ tgt) :
    stateInv (handleCreate u1 u2 n1 n2 ⟨none, [], lbl, ts⟩) := by
  rw [handleCreate_success u1 u2 n1 n2 ⟨none, [], lbl, ts⟩ tgt hp h1]
  constructor
  · intro t ht
    simp only [Option.some.injEq] at ht
    subst ht
    exact ⟨show (0:Int) ≤ 0 by omega, show (0:Int) ≤ tgt by omega, h1,
      show (none : Option Int) ≠ none ↔ (0:Int) = tgt by simp; omega⟩
  · intro t ht
    simp at ht

lemma importValid_false_iff (d : RawAppData) :
    importValid d = false ↔
      ((d.version = none ∨ d.version = some 0) ∨
        (d.activeTracker = none ∧ d.history = none)) := by
  unfold importValid
  cases hv : d.version <;> cases ha : d.activeTracker <;> cases hh : d.history <;>
    simp [hv, ha, hh]

/-- C7: import fails exactly when the raw content is unparseable, or the
parsed document's version is falsy (zero or absent), or both `activeTracker`
and `history` are absent/null; every failure leaves the state unchanged.  In
particular `{"version":0,"activeTracker":null,"history":[]}` and
`{"version":1}` are both rejected. -/
theorem import_rejection_spec (s : AppState) :
    processFile none s = (s, false)
    ∧ (∀ d : RawAppData, (processFile (some d) s).2 = false ↔
        ((d.version = none ∨ d.version = some 0) ∨
          (d.activeTracker = none ∧ d.history = none)))
    ∧ (∀ parsed : Option RawAppData,
        (processFile parsed s).2 = false → (processFile parsed s).1 = s)
    ∧ processFile (some ⟨some 0, none, some []⟩) s = (s, false)
    ∧ processFile (some ⟨some 1, none, none⟩) s = (s, false) := by
  refine ⟨rfl, ?_, ?_, rfl, rfl⟩
  · intro d
    rw [← importValid_false_iff d]
    cases hv : importValid d <;> simp [processFile, hv]
  · intro parsed hf
    cases parsed with
    | none => rfl
    | some d =>
      cases hv : importValid d with
      | true => simp [processFile, hv] at hf
      | false => simp [processFile, hv]

/-- C7 witness: the concrete document `{"version":1}` is rejected on a
concrete state, which is left unchanged. -/
theorem import_rejection_spec_witness :
    processFile (some ⟨some 1, none, none⟩) zeroState = (zeroState, false) :=
  (import_rejection_spec zeroState).2.2.2.2

/-- C8: for every active-tracker value and history list, importing the
exported document succeeds and restores both structures verbatim. -/
theorem export_import_roundtrip (active : Option Tracker) (history : List Tracker)
    (s : AppState) :
    processFile (some (handleExport active history)) s =
      ({ s with activeTracker := active, history := history }, true) := by
  simp [processFile, handleExport, importValid, handleImport]

/-- C9: every document that passes import validation is stored exactly as
given — the active tracker verbatim, the history verbatim when present — with
no field-level validation of individual trackers. -/
theorem import_verbatim_spec (d : RawAppData) (s : AppState)
    (h : importValid d = true) :
    processFile (some d) s =
      ({ s with activeTracker := d.activeTracker, history := d.history.getD [] }, true)
    ∧ (∀ hl : List Tracker, d.history = some hl →
        (processFile (some d) s).1.history = hl) := by
  have h1 : processFile (some d) s = (handleImport d s, true) := by
    simp [processFile, h]
  refine ⟨by rw [h1]; rfl, ?_⟩
  intro hl hh
  rw [h1]
  simp [handleImport, hh]

/-- C9 witness: a document whose tracker has `current > target` (`oddTracker`,
5 of 3) passes validation and is stored as-is. -/
theorem import_verbatim_spec_witness :
    processFile (some oddDoc) zeroState =
      (⟨some oddTracker, [oddTracker], "", ""⟩, true) :=
  (import_verbatim_spec oddDoc zeroState (by decide)).1

/-- C10: a document with a truthy version and an active tracker but no
`history` field is accepted, and the stored history defaults to the empty
list. -/
theorem import_missing_history_defaults (d : RawAppData) (s : AppState) (v : Int)
    (hv : d.version = some v) (hv0 : v ≠ 0) (ha : d.activeTracker.isSome = true)
    (hh : d.history = none) :
    processFile (some d) s =
      ({ s with activeTracker := d.activeTracker, history := [] }, true) := by
  have hval : importValid d = true := by
    simp [importValid, hv, hv0, ha]
  simp [processFile, hval, handleImport, hh]

/-- C10 witness: the concrete no-history document `noHistDoc` is accepted and
its history is stored as `[]`. -/
theorem import_missing_history_defaults_witness :
    processFile (some noHistDoc) fullState = (⟨some zeroTracker, [], "", ""⟩, true) :=
  import_missing_history_defaults noHistDoc fullState 2 rfl (by decide) rfl rfl

/-- C1: with `current < target`, one increment call bumps the counter by one
and appends exactly one `increment` entry; when the new counter reaches the
target the same single transition also sets `completedAt` and appends exactly
one `completed` entry; with `current ≥ target` increment is a no-op.  The
create-target-20 scenario: `completedAt` stays null through the 19th call,
turns non-null on the 20th, whose single transition appends both an
`increment` and a `completed` entry, leaving exactly 1 `created`, 20
`increment` and 1 `completed` entries. -/
theorem increment_transition_spec (u1 u2 : String) (n1 n2 n3 : Int) (s : AppState)
    (a : Tracker) (h : s.activeTracker = some a) :
    (a.current + 1 < a.target →
      handleIncrement u1 u2 n1 n2 n3 s =
        { s with activeTracker := some { a with
            current := a.current + 1
            logs := a.logs ++ [⟨u1, n1, .increment,
              "Progress: " ++ toString (a.current + 1) ++ "/" ++ toString a.target⟩] } })
    ∧ (a.current + 1 = a.target →
      handleIncrement u1 u2 n1 n2 n3 s =
        { s with activeTracker := some { a with
            current := a.current + 1
            completedAt := some n2
            logs := a.logs ++
              [⟨u1, n1, .increment,
                "Progress: " ++ toString (a.current + 1) ++ "/" ++ toString a.target⟩,
               ⟨u2, n3, .completed, "Completed! 🎉"⟩] } })
    ∧ (a.target ≤ a.current → handleIncrement u1 u2 n1 n2 n3 s = s)
    ∧ (∀ k : Nat, k < 20 →
        ((incN k scenarioStart).activeTracker.map Tracker.completedAt) = some none)
    ∧ ((incN 20 scenarioStart).activeTracker.map Tracker.completedAt) = some (some 0)
    ∧ ((incN 20 scenarioStart).activeTracker.map fun t => t.logs) =
        ((incN 19 scenarioStart).activeTracker.map fun t => t.logs ++
          [⟨"u", 0, .increment, "Progress: 20/20"⟩, ⟨"v", 0, .completed, "Completed! 🎉"⟩])
    ∧ ((incN 20 scenarioStart).activeTracker.map fun t =>
        ((t.logs.map LogEntry.action).count Action.created,
         (t.logs.map LogEntry.action).count Action.increment,
         (t.logs.map LogEntry.action).count Action.completed)) = some (1, 20, 1) := by
  refine ⟨?_, ?_, ?_, by decide, by decide, by decide, by decide⟩
  · intro hlt
    exact handleIncrement_step u1 u2 n1 n2 n3 s a h hlt
  · intro heq
    exact handleIncrement_complete u1 u2 n1 n2 n3 s a h heq
  · intro hge
    exact handleIncrement_noop u1 u2 n1 n2 n3 s a h hge

/-- C1 witness: incrementing a concrete completed tracker (3 of 3) is a
no-op. -/
theorem increment_transition_spec_witness :
    handleIncrement "w" "x" 1 2 3 fullState = fullState :=
  (increment_transition_spec "w" "x" 1 2 3 fullState fullTracker rfl).2.2.1 (by decide)

/-- C3: with `current > 0`, one decrement call lowers the counter by one and
appends exactly one `decrement` entry, clearing `completedAt` in the same
transition when the prior counter was at or above the target; with
`current = 0` the call leaves the state (tracker and log included)
identical. -/
theorem decrement_transition_spec (u1 : String) (n1 : Int) (s : AppState)
    (a : Tracker) (h : s.activeTracker = some a) :
    (0 < a.current →
      handleDecrement u1 n1 s =
        { s with activeTracker := some { a with
            current := a.current - 1
            completedAt := if a.current ≥ a.target then none else a.completedAt
            logs := a.logs ++ [⟨u1, n1, .decrement,
              "Progress: " ++ toString (a.current - 1) ++ "/" ++ toString a.target⟩] } })
    ∧ (a.current = 0 → handleDecrement u1 n1 s = s) :=
  ⟨fun hz => handleDecrement_pos u1 n1 s a h hz,
   fun hz => handleDecrement_zero u1 n1 s a h (by omega)⟩

/-- C3 witness: decrementing a concrete tracker whose counter is 0 leaves the
state identical. -/
theorem decrement_transition_spec_witness :
    handleDecrement "d" 7 zeroState = zeroState :=
  (decrement_transition_spec "d" 7 zeroState zeroTracker rfl).2 rfl

/-- C5: when the target input parses to an integer `≥ 1`, create produces a
fresh tracker with `current = 0`, null `completedAt`/`archivedAt`, exactly one
`created` log entry naming the resolved label and target, the label defaulting
to the placeholder when it trims to empty; the tracker replaces the active
slot and the history is untouched (no implicit archival) while the form
inputs are cleared.  When the input does not parse, or parses below 1, the
call has no effect at all. -/
theorem create_transition_spec (u1 u2 : String) (n1 n2 : Int) (s : AppState) :
    (∀ tgt : Int, parseIntJS s.targetStr = some tgt → 1 ≤ tgt →
      handleCreate u1 u2 n1 n2 s =
        ⟨some ⟨u1, resolvedLabel s, tgt, 0, n1, none, none,
          [⟨u2, n2, .created,
            "Created \"" ++ resolvedLabel s ++ "\" with target " ++ toString tgt⟩]⟩,
          s.history, "", ""⟩)
    ∧ (parseIntJS s.targetStr = none → handleCreate u1 u2 n1 n2 s = s)
    ∧ (∀ tgt : Int, parseIntJS s.targetStr = some tgt → tgt < 1 →
        handleCreate u1 u2 n1 n2 s = s) :=
  ⟨fun tgt hp hge => handleCreate_success u1 u2 n1 n2 s tgt hp hge,
   fun hp => handleCreate_parse_none u1 u2 n1 n2 s hp,
   fun tgt hp hlt => handleCreate_small u1 u2 n1 n2 s tgt hp hlt⟩

/-- C5 witness: creating from a concrete form (whitespace label, target "3")
yields the placeholder-labelled fresh tracker with one `created` entry. -/
theorem create_transition_spec_witness :
    handleCreate "i" "j" 4 5 createState =
      ⟨some ⟨"i", "Tracker", 3, 0, 4, none, none,
        [⟨"j", 5, .created, "Created \"Tracker\" with target 3"⟩]⟩, [], "", ""⟩ :=
  (create_transition_spec "i" "j" 4 5 createState).1 3 (by decide) (by decide)

/-- C6: archiving an existing active tracker sets `archivedAt`, appends
exactly one `archived` log entry, prepends the result to the front of the
history (prior entries preserved in order), clears the active slot, and
changes no other tracker field. -/
theorem archive_transition_spec (u1 : String) (n1 n2 : Int) (s : AppState)
    (a : Tracker) (h : s.activeTracker = some a) :
    handleArchive u1 n1 n2 s =
      { s with
        activeTracker := none
        history := { a with
          archivedAt := some n1
          logs := a.logs ++ [⟨u1, n2, .archived, "Tracker archived"⟩] } :: s.history } :=
  handleArchive_some u1 n1 n2 s a h

/-- C6 witness: archiving a concrete completed tracker moves it, stamped and
logged, to the front of the history and clears the active slot. -/
theorem archive_transition_spec_witness :
    handleArchive "k" 8 9 fullState =
      ⟨none, [⟨"y", "Laps", 3, 3, 0, some 5, some 8,
        [⟨"k", 9, .archived, "Tracker archived"⟩]⟩], "", ""⟩ :=
  archive_transition_spec "k" 8 9 fullState fullTracker rfl

/-- C2: every tracker reachable from a successful create (fresh session, no
imported data) by any sequence of increment, decrement and archive
operations — whether still active or already archived into the history —
satisfies `0 ≤ current ≤ target` and `target ≥ 1`. -/
theorem reachable_counter_bounds (lbl ts u1 u2 : String) (n1 n2 : Int) (tgt : Int)
    (hp : parseIntJS ts = some tgt) (h1 : 1 ≤ tgt) (ops : List Op) (t : Tracker)
    (hmem :
      (runOps (handleCreate u1 u2 n1 n2 ⟨none, [], lbl, ts⟩) ops).activeTracker = some t ∨
      t ∈ (runOps (handleCreate u1 u2 n1 n2 ⟨none, [], lbl, ts⟩) ops).history) :
    0 ≤ t.current ∧ t.current ≤ t.target ∧ 1 ≤ t.target := by
  have hInv := stateInv_runOps ops (handleCreate u1 u2 n1 n2 ⟨none, [], lbl, ts⟩)
    (stateInv_create_start lbl ts u1 u2 n1 n2 tgt hp h1)
  rcases hmem with hmem | hmem
  · obtain ⟨hb0, hbt, hb1, _⟩ := hInv.1 t hmem
    exact ⟨hb0, hbt, hb1⟩
  · obtain ⟨hb0, hbt, hb1, _⟩ := hInv.2 t hmem
    exact ⟨hb0, hbt, hb1⟩

/-- C2 witness: the concrete tracker reached by create (target 3) followed by
one increment satisfies the counter bounds. -/
theorem reachable_counter_bounds_witness :
    0 ≤ witnessTracker.current ∧ witnessTracker.current ≤ witnessTracker.target ∧
      1 ≤ witnessTracker.target :=
  reachable_counter_bounds "A" "3" "a" "b" 0 1 3 (by decide) (by decide)
    [Op.inc "c" "d" 2 3 4] witnessTracker (Or.inl (by decide))

/-- C4: every tracker reachable from a successful create (fresh session, no
imported data) by any sequence of increment, decrement and archive operations
has `completedAt` non-null exactly when `current = target`. -/
theorem reachable_completedAt_iff (lbl ts u1 u2 : String) (n1 n2 : Int) (tgt : Int)
    (hp : parseIntJS ts = some tgt) (h1 : 1 ≤ tgt) (ops : List Op) (t : Tracker)
    (hmem :
      (runOps (handleCreate u1 u2 n1 n2 ⟨none, [], lbl, ts⟩) ops).activeTracker = some t ∨
      t ∈ (runOps (handleCreate u1 u2 n1 n2 ⟨none, [], lbl, ts⟩) ops).history) :
    t.completedAt ≠ none ↔ t.current = t.target := by
  have hInv := stateInv_runOps ops (handleCreate u1 u2 n1 n2 ⟨none, [], lbl, ts⟩)
    (stateInv_create_start lbl ts u1 u2 n1 n2 tgt hp h1)
  rcases hmem with hmem | hmem
  · exact (hInv.1 t hmem).2.2.2
  · exact (hInv.2 t hmem).2.2.2

/-- C4 witness: the concrete tracker reached by create (target 3), two
increments and one decrement has a null `completedAt` and a counter below the
target. -/
theorem reachable_completedAt_iff_witness :
    (⟨"a", "A", 3, 1, 0, none, none,
      [⟨"b", 1, .created, "Created \"A\" with target 3"⟩,
       ⟨"c", 2, .increment, "Progress: 1/3"⟩,
       ⟨"e", 5, .increment, "Progress: 2/3"⟩,
       ⟨"g", 8, .decrement, "Progress: 1/3"⟩]⟩ : Tracker).completedAt ≠ none ↔
    (⟨"a", "A", 3, 1, 0, none, none,
      [⟨"b", 1, .created, "Created \"A\" with target 3"⟩,
       ⟨"c", 2, .increment, "Progress: 1/3"⟩,
       ⟨"e", 5, .increment, "Progress: 2/3"⟩,
       ⟨"g", 8, .decrement, "Progress: 1/3"⟩]⟩ : Tracker).current =
    (⟨"a", "A", 3, 1, 0, none, none,
      [⟨"b", 1, .created, "Created \"A\" with target 3"⟩,
       ⟨"c", 2, .increment, "Progress: 1/3"⟩,
       ⟨"e", 5, .increment, "Progress: 2/3"⟩,
       ⟨"g", 8, .decrement, "Progress: 1/3"⟩]⟩ : Tracker).target :=
  reachable_completedAt_iff "A" "3" "a" "b" 0 1 3 (by decide) (by decide)
    [Op.inc "c" "d" 2 3 4, Op.inc "e" "f" 5 6 7, Op.dec "g" 8] _ (Or.inl (by decide))

end ProgressTracker
